import Mathlib

/-!
Shallow embedding of the Saleor Telegram mini-app session controller
(`App` component and its helpers in the repository's single application
source file): the cart store, the cart summary, order-sheet visibility,
the order-submission flow and store/catalog selection.  JavaScript `Map`
objects are modelled as insertion-ordered association lists, JavaScript
truthiness on strings (`s || d`) by explicit empty-string tests, nullable
values by `Option`, numbers by `Int` (quantities, counts) and `ℚ` (money
amounts), and the asynchronous backend call by passing its outcome as an
explicit argument.
-/

namespace SaleorTma

/-- `Store` record (source type `Store`). -/
structure Store where
  id : String
  slug : String
  name : String
  description : String
  image : String
  imageAlt : String
deriving DecidableEq, Repr

/-- `Product` record (source type `Product`): nullable fields are `Option`. -/
structure Product where
  id : String
  slug : String
  name : String
  description : String
  image : String
  imageAlt : String
  variantId : Option String
  variantName : String
  variantSku : String
  quantityAvailable : Option Int
  priceAmount : Option ℚ
  priceCurrency : Option String
deriving DecidableEq, Repr

/-- `Category` record (source type `Category`). -/
structure Category where
  id : String
  name : String
  products : List Product
deriving DecidableEq, Repr

/-- `CartEntry` record (source type `CartEntry`). -/
structure CartEntry where
  product : Product
  quantity : Int
deriving DecidableEq, Repr

/-- The `total` part of the source's `CartSummary`. -/
structure Money where
  amount : ℚ
  currency : String
deriving DecidableEq, Repr

/-- `CartSummary` record (source type `CartSummary`). -/
structure CartSummary where
  items : Int
  total : Money
deriving DecidableEq, Repr

/-- The cart: a JavaScript `Map<string, CartEntry>` as an insertion-ordered
association list. -/
abbrev Cart := List (String × CartEntry)

/-- JavaScript string truthiness fallback `s || d` for a plain string `s`. -/
def jsOr (s d : String) : String := if s = "" then d else s

/-- JavaScript `s || null` for a nullable string `s`: an empty string
collapses to `null`. -/
def jsOrNull (o : Option String) : Option String :=
  match o with
  | some s => if s = "" then none else some s
  | none => none

/-- JavaScript `a || b` where `a` is a nullable string and `b` nullable. -/
def jsOrOpt (a b : Option String) : Option String :=
  match a with
  | some s => if s = "" then b else some s
  | none => b

/-- `Map.set`: replace the value at an existing key in place, else append. -/
def mapSet : Cart → String → CartEntry → Cart
  | [], k, v => [(k, v)]
  | e :: rest, k, v => if e.1 = k then (k, v) :: rest else e :: mapSet rest k v

/-- `Map.delete`: drop the entry stored under the key. -/
def mapDelete (m : Cart) (k : String) : Cart :=
  m.filter (fun e => e.1 ≠ k)

/-- The `App` component state touched by the claims: one field per
`useState` hook of the source (`selectedStore`, `selectedCategoryId`,
`productsByCategory`, `productEmptyMessage`, `cart`, `currency`,
`orderSheetVisible`, `isSubmitting`) plus the toast message slot. -/
structure AppState where
  selectedStore : Option Store
  selectedCategoryId : Option String
  productsByCategory : List Category
  productEmptyMessage : String
  cart : Cart
  currency : Option String
  orderSheetVisible : Bool
  isSubmitting : Bool
  toast : Option String
deriving DecidableEq, Repr

/-- The initial hook values of the source component. -/
def initialState : AppState where
  selectedStore := none
  selectedCategoryId := none
  productsByCategory := []
  productEmptyMessage := "This category has no products right now. Try another one."
  cart := []
  currency := none
  orderSheetVisible := false
  isSubmitting := false
  toast := none

/-- `showToast`: post a notification message (the timer is not modelled). -/
def showToast (st : AppState) (message : String) : AppState :=
  { st with toast := some message }

/-- `updateCart` (source lines 384–398): quantity ≤ 0 deletes the entry,
otherwise the entry is upserted; a truthy product currency becomes the
cart's inferred currency. -/
def updateCart (st : AppState) (product : Product) (nextQuantity : Int) : AppState :=
  let cart :=
    if nextQuantity ≤ 0 then mapDelete st.cart product.id
    else mapSet st.cart product.id ⟨product, nextQuantity⟩
  let currency :=
    match product.priceCurrency with
    | some c => if c = "" then st.currency else some c
    | none => st.currency
  { st with cart := cart, currency := currency }

/-- One step of the `cart.forEach` loop of `summarizeCart`: accumulator is
`(items, amount, nextCurrency)`. -/
def summarizeStep (acc : Int × ℚ × Option String) (e : String × CartEntry) :
    Int × ℚ × Option String :=
  match e.2.product.priceAmount with
  | some p =>
      (acc.1 + e.2.quantity, acc.2.1 + p * (e.2.quantity : ℚ),
        jsOrOpt e.2.product.priceCurrency acc.2.2)
  | none => acc

/-- The `nextCurrency` value `summarizeCart` ends its loop with. -/
def inferredCurrency (st : AppState) : Option String :=
  (st.cart.foldl summarizeStep (0, 0, st.currency)).2.2

/-- `summarizeCart` (source lines 400–420): entries with a known price
contribute quantity and price×quantity; the result currency falls back to
`"USD"` when the inferred currency is unset or empty. -/
def summarizeCart (st : AppState) : CartSummary :=
  let r := st.cart.foldl summarizeStep (0, 0, st.currency)
  ⟨r.1, ⟨r.2.1, (jsOrNull r.2.2).getD "USD"⟩⟩

/-- `resetCart` (source lines 351–354). -/
def resetCart (st : AppState) : AppState :=
  { st with cart := [], currency := none }

/-- `openOrderSheet` (source lines 448–451): early return when visible. -/
def openOrderSheet (st : AppState) : AppState :=
  if st.orderSheetVisible then st else { st with orderSheetVisible := true }

/-- `closeOrderSheet` (source lines 453–456): early return when hidden. -/
def closeOrderSheet (st : AppState) : AppState :=
  if st.orderSheetVisible then { st with orderSheetVisible := false } else st

/-- The `mainButton.onClick` handler (source lines 509–513): open the
order sheet only when the cart is non-empty. -/
def mainButtonOnClick (st : AppState) : AppState :=
  if 0 < st.cart.length then openOrderSheet st else st

/-- The add button's `disabled` expression (source lines 843–845):
`!product.variantId || product.priceAmount == null`. -/
def addButtonDisabled (product : Product) : Bool :=
  (match product.variantId with
   | some v => v = ""
   | none => true) || product.priceAmount.isNone

/-- The guard of the order-line filter in `submitOrder` (source line 529):
`product.variantId && product.priceAmount != null`. -/
def lineEligible (product : Product) : Bool :=
  (match product.variantId with
   | some v => v ≠ ""
   | none => false) && product.priceAmount.isSome

/-- An order line sent to `checkoutCreate`. -/
structure OrderLine where
  quantity : Int
  variantId : String
deriving DecidableEq, Repr

/-- The `lines` array built by `submitOrder` (source lines 527–535). -/
def submitLines (cart : Cart) : List OrderLine :=
  cart.filterMap (fun e =>
    if lineEligible e.2.product then
      some ⟨e.2.quantity, e.2.product.variantId.getD ""⟩
    else none)

/-- One entry of `checkoutCreate`'s `errors` list. -/
structure CheckoutError where
  field : Option String
  message : Option String
  code : Option String
deriving DecidableEq, Repr

/-- `err.message || err.code` as stringified by `Array.prototype.join`
(null/undefined become the empty string). -/
def checkoutErrorText (e : CheckoutError) : String :=
  match e.message with
  | some m => if m = "" then e.code.getD "" else m
  | none => e.code.getD ""

/-- The outcome of the awaited `graphQLRequest` in `submitOrder`: either a
thrown error (transport failure or backend error list raised inside
`graphQLRequest`) or a well-formed `checkoutCreate` payload carrying a
possibly-empty validation `errors` list and an optional checkout URL. -/
inductive SubmitResult where
  | thrown (message : String)
  | payload (errors : List CheckoutError) (webUrl : Option String)
deriving DecidableEq, Repr

/-- The toast text of the `catch` branch of `submitOrder`
(source line 618). -/
def submissionFailureToast (m : String) : String :=
  "Order submission failed: " ++ jsOr m "Unknown error"

/-- Whether the call to `submitOrder` reaches the backend request: not
already in flight and at least one eligible line. -/
def submitOrderCallsBackend (st : AppState) : Bool :=
  !st.isSubmitting && !(submitLines st.cart).isEmpty

/-- `submitOrder` up to its suspension point (source lines 524–542): the
in-flight guard, the eligible-line filter with its "nothing to submit"
toast, and setting the in-flight flag before the backend call. -/
def submitOrderBegin (st : AppState) : AppState :=
  if st.isSubmitting then st
  else if (submitLines st.cart).isEmpty then
    showToast st "Nothing to submit. Add items first."
  else
    { st with isSubmitting := true }

/-- The human-readable message of the error the `try` block of
`submitOrder` raises for a failing backend result, `none` on success. -/
def failureMessage : SubmitResult → Option String
  | .thrown m => some m
  | .payload errors _ =>
      if errors.isEmpty then none
      else some (jsOr (String.intercalate ", " (errors.map checkoutErrorText))
        "Saleor returned an error.")

/-- `submitOrder` after the backend call resolves (source lines 589–621):
a non-empty `errors` list is rethrown and handled like a thrown error; on
success the sheet closes, the cart resets and a confirmation toast is
posted; the `finally` clause clears the in-flight flag. -/
def submitOrderFinish (st : AppState) (result : SubmitResult) : AppState :=
  match failureMessage result with
  | some m => { st with isSubmitting := false, toast := some (submissionFailureToast m) }
  | none =>
      { st with cart := [], currency := none, orderSheetVisible := false,
                toast := some "Order draft created. Continue in Saleor to finalize.",
                isSubmitting := false }

/-- The whole `submitOrder` call with the backend outcome passed in. -/
def submitOrder (st : AppState) (result : SubmitResult) : AppState :=
  if submitOrderCallsBackend st then submitOrderFinish (submitOrderBegin st) result
  else submitOrderBegin st

/-- Backend calls made by two back-to-back `submitOrder` invocations, the
second arriving while the first is suspended at its backend call. -/
def backToBackSubmitCalls (st : AppState) : Nat :=
  (if submitOrderCallsBackend st then 1 else 0) +
  (if submitOrderCallsBackend (submitOrderBegin st) then 1 else 0)

/-- A `gross` money object of the catalog response. -/
structure RawPrice where
  amount : ℚ
  currency : String
deriving DecidableEq, Repr

/-- One variant node of the catalog response. -/
structure RawVariant where
  id : String
  name : Option String
  sku : Option String
  quantityAvailable : Option Int
  price : Option RawPrice
deriving DecidableEq, Repr

/-- The `category` reference of a product node. -/
structure RawCategoryRef where
  id : String
  name : String
deriving DecidableEq, Repr

/-- One product node of the catalog response, with the fields
`loadStoreProducts` reads. -/
structure RawProductNode where
  id : String
  name : String
  slug : String
  description : Option String
  category : Option RawCategoryRef
  thumbnailUrl : Option String
  thumbnailAlt : Option String
  priceRangeStart : Option RawPrice
  variants : List RawVariant
deriving DecidableEq, Repr

/-- The product mapping of `loadStoreProducts` (source lines 312–338):
first variant wins, variant price falls back to the product's price-range
start, nullable strings collapse under JavaScript truthiness. -/
def parseProduct (node : RawProductNode) : Product :=
  let selectedVariant := node.variants.head?
  let price :=
    match selectedVariant.bind RawVariant.price with
    | some p => some p
    | none => node.priceRangeStart
  { id := node.id
    slug := node.slug
    name := node.name
    description := node.description.getD ""
    image := node.thumbnailUrl.getD ""
    imageAlt := jsOr (node.thumbnailAlt.getD "") node.name
    variantId :=
      match selectedVariant with
      | some v => if v.id = "" then none else some v.id
      | none => none
    variantName := (selectedVariant.bind RawVariant.name).getD ""
    variantSku := (selectedVariant.bind RawVariant.sku).getD ""
    quantityAvailable := selectedVariant.bind RawVariant.quantityAvailable
    priceAmount := price.map RawPrice.amount
    priceCurrency := price.map RawPrice.currency }

/-- `node.category?.id || "uncategorized"`. -/
def nodeCategoryId (node : RawProductNode) : String :=
  match node.category with
  | some c => jsOr c.id "uncategorized"
  | none => "uncategorized"

/-- `node.category?.name || "Menu"`. -/
def nodeCategoryName (node : RawProductNode) : String :=
  match node.category with
  | some c => jsOr c.name "Menu"
  | none => "Menu"

/-- One iteration of the grouping loop of `loadStoreProducts` (source
lines 300–339): create the category bucket on first sight, then push the
parsed product into it. -/
def insertProductNode (cats : List Category) (node : RawProductNode) : List Category :=
  let cid := nodeCategoryId node
  if cats.any (fun c => c.id == cid) then
    cats.map (fun c =>
      if c.id = cid then { c with products := c.products ++ [parseProduct node] } else c)
  else
    cats ++ [{ id := cid, name := nodeCategoryName node, products := [parseProduct node] }]

/-- The `byCategory` map built by `loadStoreProducts`, in insertion
order. -/
def groupByCategory (nodes : List RawProductNode) : List Category :=
  nodes.foldl insertProductNode []

/-- The comparator of the category sorts (source lines 120–122 and
342–344): `localeCompare` with base sensitivity, modelled as
case-insensitive lexicographic comparison. -/
def categoryLe (a b : Category) : Bool :=
  decide (a.name.toLower ≤ b.name.toLower)

/-- `Array.from(byCategory.values()).sort(...)` of `loadStoreProducts`. -/
def sortCategories (cats : List Category) : List Category :=
  cats.mergeSort categoryLe

/-- The tail of `loadStoreProducts` (source lines 341–346): store the
grouped catalog and activate the sorted-first category's id (an absent or
empty id collapses to `null`). -/
def loadStoreProductsOk (st : AppState) (nodes : List RawProductNode) : AppState :=
  let byCategory := groupByCategory nodes
  let firstCategory := (sortCategories byCategory).head?
  { st with productsByCategory := byCategory,
            selectedCategoryId := jsOrNull (firstCategory.map Category.id) }

/-- `selectStore` (source lines 356–375) with the catalog fetch's outcome
passed in: select the store, reset the cart and the empty message, then
either apply the loaded catalog or absorb the failure into a toast, an
empty catalog, no active category and a retry-oriented empty message. -/
def selectStore (st : AppState) (store : Store)
    (fetch : Except String (List RawProductNode)) : AppState :=
  let st1 := { resetCart st with
               selectedStore := some store,
               productEmptyMessage :=
                 "This category has no products right now. Try another one." }
  match fetch with
  | .ok nodes => loadStoreProductsOk st1 nodes
  | .error m =>
      { showToast st1 (jsOr m "Unable to load products for this store.") with
        productsByCategory := [],
        selectedCategoryId := none,
        productEmptyMessage := "Unable to load products. Swipe down to retry." }

/-! ## Association-list lemmas for the cart map -/

theorem find?_mapSet (m : Cart) (k : String) (v : CartEntry) :
    (mapSet m k v).find? (fun e => e.1 == k) = some (k, v) := by
  induction m with
  | nil => simp [mapSet]
  | cons e rest ih =>
      by_cases h : e.1 = k
      · simp [mapSet, h]
      · simp [mapSet, h, ih]

theorem mem_mapSet (m : Cart) (k : String) (v : CartEntry) (e : String × CartEntry)
    (h : e ∈ mapSet m k v) : e = (k, v) ∨ e ∈ m := by
  induction m with
  | nil => simpa [mapSet] using h
  | cons f rest ih =>
      by_cases hf : f.1 = k
      · rw [mapSet, if_pos hf] at h
        rcases List.mem_cons.mp h with h1 | h1
        · exact Or.inl h1
        · exact Or.inr (List.mem_cons_of_mem _ h1)
      · rw [mapSet, if_neg hf] at h
        rcases List.mem_cons.mp h with h1 | h1
        · exact Or.inr (h1 ▸ List.mem_cons_self _ _)
        · rcases ih h1 with h2 | h2
          · exact Or.inl h2
          · exact Or.inr (List.mem_cons_of_mem _ h2)

theorem mem_keys_mapSet (m : Cart) (k a : String) (v : CartEntry)
    (h : a ∈ (mapSet m k v).map Prod.fst) : a = k ∨ a ∈ m.map Prod.fst := by
  rcases List.mem_map.mp h with ⟨e, he, rfl⟩
  rcases mem_mapSet m k v e he with rfl | h2
  · exact Or.inl rfl
  · exact Or.inr (List.mem_map_of_mem Prod.fst h2)

theorem nodup_keys_mapSet (m : Cart) (k : String) (v : CartEntry)
    (h : (m.map Prod.fst).Nodup) : ((mapSet m k v).map Prod.fst).Nodup := by
  induction m with
  | nil => simp [mapSet]
  | cons f rest ih =>
      rw [List.map_cons, List.nodup_cons] at h
      by_cases hf : f.1 = k
      · rw [mapSet, if_pos hf, List.map_cons, List.nodup_cons]
        exact ⟨hf ▸ h.1, h.2⟩
      · rw [mapSet, if_neg hf, List.map_cons, List.nodup_cons]
        refine ⟨fun hmem => ?_, ih h.2⟩
        rcases mem_keys_mapSet rest k f.1 v hmem with h1 | h1
        · exact hf h1
        · exact h.1 h1

theorem mem_mapDelete (m : Cart) (k : String) (e : String × CartEntry)
    (h : e ∈ mapDelete m k) : e ∈ m ∧ e.1 ≠ k := by
  have h2 := List.mem_filter.mp h
  exact ⟨h2.1, by simpa using h2.2⟩

theorem nodup_keys_mapDelete (m : Cart) (k : String)
    (h : (m.map Prod.fst).Nodup) : ((mapDelete m k).map Prod.fst).Nodup :=
  ((List.filter_sublist m).map Prod.fst).nodup h

/-! ## The cart well-formedness invariant -/

/-- Each entry is keyed by its own product identity with a positive
quantity, and keys are pairwise distinct. -/
def CartWF (cart : Cart) : Prop :=
  (∀ e ∈ cart, e.1 = e.2.product.id ∧ 1 ≤ e.2.quantity) ∧ (cart.map Prod.fst).Nodup

theorem CartWF_updateCart (st : AppState) (p : Product) (n : Int)
    (h : CartWF st.cart) : CartWF (updateCart st p n).cart := by
  obtain ⟨hmem, hnd⟩ := h
  by_cases hn : n ≤ 0
  · constructor
    · intro e he
      have h2 : e ∈ mapDelete st.cart p.id := by simpa [updateCart, hn] using he
      exact hmem e (mem_mapDelete _ _ _ h2).1
    · have := nodup_keys_mapDelete st.cart p.id hnd
      simpa [updateCart, hn] using this
  · constructor
    · intro e he
      have h2 : e ∈ mapSet st.cart p.id ⟨p, n⟩ := by simpa [updateCart, hn] using he
      rcases mem_mapSet _ _ _ _ h2 with rfl | h3
      · exact ⟨rfl, show (1 : Int) ≤ n by omega⟩
      · exact hmem e h3
    · have := nodup_keys_mapSet st.cart p.id ⟨p, n⟩ hnd
      simpa [updateCart, hn] using this

/-- A whole user session of `setQuantity` calls starting from the initial
(empty) cart. -/
def runSetQuantityCalls (calls : List (Product × Int)) : AppState :=
  calls.foldl (fun st c => updateCart st c.1 c.2) initialState

theorem CartWF_foldl (calls : List (Product × Int)) (st : AppState)
    (h : CartWF st.cart) :
    CartWF (calls.foldl (fun s c => updateCart s c.1 c.2) st).cart := by
  induction calls generalizing st with
  | nil => exact h
  | cons c rest ih => exact ih _ (CartWF_updateCart _ _ _ h)

theorem CartWF_run (calls : List (Product × Int)) :
    CartWF (runSetQuantityCalls calls).cart :=
  CartWF_foldl calls initialState ⟨fun e he => absurd he (List.not_mem_nil e), List.nodup_nil⟩

/-! ## Concrete values used by witnesses and counterexamples -/

/-- A purchasable product: resolved variant and price both present. -/
def purchasableProduct : Product :=
  { id := "prod-espresso", slug := "espresso", name := "Espresso", description := "",
    image := "", imageAlt := "Espresso", variantId := some "variant-1",
    variantName := "Single", variantSku := "SKU-1", quantityAvailable := some 1,
    priceAmount := some 5, priceCurrency := some "USD" }

/-- A non-purchasable product: no resolved variant identity and no price. -/
def nonPurchasableProduct : Product :=
  { id := "prod-panini", slug := "panini", name := "Panini", description := "",
    image := "", imageAlt := "Panini", variantId := none,
    variantName := "", variantSku := "", quantityAvailable := none,
    priceAmount := none, priceCurrency := none }

/-- A state holding one purchasable cart entry with the order sheet open. -/
def demoOrderState : AppState :=
  { initialState with
    cart := [("prod-espresso", ⟨purchasableProduct, 2⟩)],
    currency := some "USD",
    orderSheetVisible := true }

/-- A state whose only cart entry is not purchasable. -/
def demoNonPurchasableState : AppState :=
  { initialState with cart := [("prod-panini", ⟨nonPurchasableProduct, 2⟩)] }

/-! ## Claim theorems: cart mutation -/

/-- C3: in every state reached from the empty cart by a sequence of
`setQuantity` (`updateCart`) calls, every cart entry has quantity ≥ 1 and
distinct entries carry distinct product identities; and from any such
state a call with quantity ≤ 0 removes the product's entry entirely. -/
theorem setQuantity_cart_invariants (calls : List (Product × Int)) :
    (∀ e ∈ (runSetQuantityCalls calls).cart, 1 ≤ e.2.quantity) ∧
    ((runSetQuantityCalls calls).cart.Pairwise
      fun a b => a.2.product.id ≠ b.2.product.id) ∧
    (∀ p n, n ≤ 0 →
      ∀ e ∈ (updateCart (runSetQuantityCalls calls) p n).cart,
        e.2.product.id ≠ p.id) := by
  obtain ⟨hmem, hnd⟩ := CartWF_run calls
  refine ⟨fun e he => (hmem e he).2, ?_, ?_⟩
  · rw [List.Nodup, List.pairwise_map] at hnd
    refine hnd.imp_of_mem ?_
    intro a b ha hb hne
    rw [← (hmem a ha).1, ← (hmem b hb).1]
    exact hne
  · intro p n hn e he
    have h2 : e ∈ mapDelete (runSetQuantityCalls calls).cart p.id := by
      simpa [updateCart, hn] using he
    obtain ⟨hin, hkey⟩ := mem_mapDelete _ _ _ h2
    rw [← (hmem e hin).1]
    exact hkey

/-- C10: for every cart state, product and quantity n > 0, `updateCart`
stores exactly quantity n under the product's identity — in particular
when n exceeds the product's `quantityAvailable`, and independently of
`quantityAvailable`'s value: available stock never clamps the quantity. -/
theorem setQuantity_ignores_stock (st : AppState) (p : Product) (n : Int)
    (h : 0 < n) :
    (updateCart st p n).cart.find? (fun e => e.1 == p.id) = some (p.id, ⟨p, n⟩) ∧
    ∀ avail : Option Int,
      ((updateCart st { p with quantityAvailable := avail } n).cart.find?
        (fun e => e.1 == p.id)).map (fun e => e.2.quantity) = some n := by
  have hn : ¬ n ≤ 0 := by omega
  constructor
  · simpa [updateCart, hn] using find?_mapSet st.cart p.id ⟨p, n⟩
  · intro avail
    have h2 := find?_mapSet st.cart p.id ⟨{ p with quantityAvailable := avail }, n⟩
    have h3 : (updateCart st { p with quantityAvailable := avail } n).cart =
        mapSet st.cart p.id ⟨{ p with quantityAvailable := avail }, n⟩ := by
      simp [updateCart, hn]
    rw [h3, h2]
    rfl

/-- C10 witness: storing quantity 5 of a product whose available stock is
only 1 still records exactly quantity 5. -/
theorem setQuantity_ignores_stock_witness :
    (updateCart initialState purchasableProduct 5).cart.find?
      (fun e => e.1 == purchasableProduct.id) =
      some (purchasableProduct.id, ⟨purchasableProduct, 5⟩) :=
  (setQuantity_ignores_stock initialState purchasableProduct 5 (by decide)).1

/-- C2 counterexample: `updateCart` applied to a non-purchasable product
(no variant identity, no price) with quantity 1 is not a no-op — it
inserts the product into the previously empty cart, so the controller
does not enforce the purchasability invariant. -/
theorem updateCart_nonpurchasable_not_noop :
    lineEligible nonPurchasableProduct = false ∧
    initialState.cart = [] ∧
    (updateCart initialState nonPurchasableProduct 1).cart =
      [(nonPurchasableProduct.id, ⟨nonPurchasableProduct, 1⟩)] := by
  refine ⟨rfl, rfl, ?_⟩
  simp [updateCart, initialState, mapSet]

/-- C2 amended: purchasability is enforced only by the UI and by the
submission filter, not by `updateCart`: the add button is disabled exactly
for non-purchasable products, while `updateCart` with a positive quantity
upserts any product — purchasable or not — under its identity. -/
theorem updateCart_purchasability_ui_gate (st : AppState) (p : Product) (n : Int) :
    addButtonDisabled p = !(lineEligible p) ∧
    (0 < n →
      (updateCart st p n).cart.find? (fun e => e.1 == p.id) = some (p.id, ⟨p, n⟩)) := by
  constructor
  · cases hv : p.variantId with
    | none => simp [addButtonDisabled, lineEligible, hv]
    | some v =>
        by_cases hveq : v = "" <;>
          cases hp : p.priceAmount <;>
            simp [addButtonDisabled, lineEligible, hv, hveq, hp]
  · intro h
    have hn : ¬ n ≤ 0 := by omega
    simpa [updateCart, hn] using find?_mapSet st.cart p.id ⟨p, n⟩

/-! ## Claim theorems: cart summary -/

theorem foldl_summarizeStep_spec (l : List (String × CartEntry))
    (a : Int × ℚ × Option String) :
    (l.foldl summarizeStep a).1 =
      a.1 + ((l.filter fun e => e.2.product.priceAmount.isSome).map
        fun e => e.2.quantity).sum ∧
    (l.foldl summarizeStep a).2.1 =
      a.2.1 + ((l.filter fun e => e.2.product.priceAmount.isSome).map
        fun e => e.2.product.priceAmount.getD 0 * (e.2.quantity : ℚ)).sum := by
  induction l generalizing a with
  | nil => simp
  | cons e rest ih =>
      cases hp : e.2.product.priceAmount with
      | none =>
          have h2 := ih a
          simpa [summarizeStep, hp] using h2
      | some p =>
          have h2 := ih (summarizeStep a e)
          rw [List.foldl_cons]
          refine ⟨?_, ?_⟩
          · rw [h2.1]
            simp [summarizeStep, hp]
            ring
          · rw [h2.2]
            simp [summarizeStep, hp]
            ring

/-- C9: for every state, the summary's item count is the sum of the
quantities of exactly the entries with a non-null price, and the total
amount is the sum of price × quantity over those same entries; null-price
entries contribute to neither. -/
theorem summarizeCart_priced_entries (st : AppState) :
    (summarizeCart st).items =
      ((st.cart.filter fun e => e.2.product.priceAmount.isSome).map
        fun e => e.2.quantity).sum ∧
    (summarizeCart st).total.amount =
      ((st.cart.filter fun e => e.2.product.priceAmount.isSome).map
        fun e => e.2.product.priceAmount.getD 0 * (e.2.quantity : ℚ)).sum := by
  have h := foldl_summarizeStep_spec st.cart (0, 0, st.currency)
  simpa [summarizeCart] using h

/-- C4 counterexample: after `resetCart` the inferred currency is unset
(`none`), but `summarizeCart` does not return an unset currency — its
currency field is the concrete default label `"USD"`. -/
theorem clear_summary_currency_defaults :
    (resetCart initialState).currency = none ∧
    inferredCurrency (resetCart initialState) = none ∧
    summarizeCart (resetCart initialState) =
      ⟨0, ⟨0, "USD"⟩⟩ := by
  exact ⟨rfl, rfl, rfl⟩

/-- C4 amended: after `clear()` (`resetCart`) the summary has item count
0 and total amount 0 and the inferred currency state is unset, while the
summary's currency field falls back to the default label `"USD"`; the
same holds for any state whose cart mapping is empty. -/
theorem clear_summary_spec (st : AppState) :
    (resetCart st).currency = none ∧
    summarizeCart (resetCart st) = ⟨0, ⟨0, "USD"⟩⟩ ∧
    (st.cart = [] →
      (summarizeCart st).items = 0 ∧
      (summarizeCart st).total.amount = 0 ∧
      inferredCurrency st = st.currency ∧
      (summarizeCart st).total.currency = (jsOrNull st.currency).getD "USD") := by
  refine ⟨rfl, rfl, ?_⟩
  intro h
  refine ⟨?_, ?_, ?_, ?_⟩ <;> simp [summarizeCart, inferredCurrency, h]

/-! ## Claim theorems: order sheet -/

/-- C7 counterexample: with an empty cart and the sheet closed,
`openOrderSheet` does open the order sheet — the function itself carries
no empty-cart gate (the gate lives in the main-button click handler). -/
theorem openOrderSheet_empty_cart_opens :
    initialState.cart = [] ∧
    initialState.orderSheetVisible = false ∧
    (openOrderSheet initialState).orderSheetVisible = true :=
  ⟨rfl, rfl, rfl⟩

/-- C7 amended: `openOrderSheet` is a no-op when the sheet is already
open and `closeOrderSheet` when it is already closed; the empty-cart gate
is enforced by the main-button click handler, which leaves the state (and
the closed sheet) unchanged whenever the cart is empty. -/
theorem orderSheet_toggles_and_click_gate (st : AppState) :
    (st.orderSheetVisible = true → openOrderSheet st = st) ∧
    (st.orderSheetVisible = false → closeOrderSheet st = st) ∧
    (st.cart = [] → mainButtonOnClick st = st) := by
  refine ⟨fun h => ?_, fun h => ?_, fun h => ?_⟩
  · simp [openOrderSheet, h]
  · simp [closeOrderSheet, h]
  · simp [mainButtonOnClick, h]

/-! ## Claim theorems: order submission -/

/-- C1: when the submission is attempted (not in flight, at least one
eligible line) and the backend call fails — thrown transport/backend
error or a non-empty validation error list — the cart mapping and the
order-sheet visibility are exactly what they were before, the submission
flag is back to Idle, and the posted notification contains the error's
human-readable message. -/
theorem submitOrder_failure_preserves (st : AppState) (result : SubmitResult)
    (h1 : st.isSubmitting = false)
    (h2 : (submitLines st.cart).isEmpty = false)
    (m : String) (hm : failureMessage result = some m) :
    (submitOrder st result).cart = st.cart ∧
    (submitOrder st result).orderSheetVisible = st.orderSheetVisible ∧
    (submitOrder st result).isSubmitting = false ∧
    ∃ pre post, (submitOrder st result).toast = some (pre ++ m ++ post) := by
  have hcb : submitOrderCallsBackend st = true := by
    simp [submitOrderCallsBackend, h1, h2]
  have hbegin : submitOrderBegin st = { st with isSubmitting := true } := by
    simp [submitOrderBegin, h1, h2]
  have hso : submitOrder st result =
      submitOrderFinish { st with isSubmitting := true } result := by
    rw [submitOrder, if_pos hcb, hbegin]
  rw [hso, submitOrderFinish, hm]
  refine ⟨rfl, rfl, rfl, ?_⟩
  by_cases hm0 : m = ""
  · refine ⟨"Order submission failed: " ++ "Unknown error", "", ?_⟩
    simp [submissionFailureToast, jsOr, hm0]
  · refine ⟨"Order submission failed: ", "", ?_⟩
    simp [submissionFailureToast, jsOr, hm0]

/-- C1 witness: a transport failure leaves the concrete one-entry cart
and the open order sheet untouched, ends Idle, and posts a toast carrying
the error message. -/
theorem submitOrder_failure_preserves_witness :
    (submitOrder demoOrderState (SubmitResult.thrown "HTTP 500")).cart =
      demoOrderState.cart ∧
    (submitOrder demoOrderState (SubmitResult.thrown "HTTP 500")).orderSheetVisible =
      demoOrderState.orderSheetVisible ∧
    (submitOrder demoOrderState (SubmitResult.thrown "HTTP 500")).isSubmitting = false :=
  (fun h => ⟨h.1, h.2.1, h.2.2.1⟩)
    (submitOrder_failure_preserves demoOrderState (SubmitResult.thrown "HTTP 500")
      rfl (by decide) "HTTP 500" rfl)

/-- C5: when no cart entry is purchasable (eligible for an order line) —
even with a non-empty cart — `submitOrder` only posts the "nothing to
submit" notification: no backend call is made and the submission flag
never becomes InFlight. -/
theorem submitOrder_nothing_to_submit (st : AppState) (result : SubmitResult)
    (h1 : st.isSubmitting = false)
    (h2 : ∀ e ∈ st.cart, lineEligible e.2.product = false) :
    submitOrder st result = showToast st "Nothing to submit. Add items first." ∧
    submitOrderCallsBackend st = false ∧
    (submitOrder st result).isSubmitting = false := by
  have hl : submitLines st.cart = [] := by
    rw [submitLines, List.filterMap_eq_nil_iff]
    intro e he
    simp [h2 e he]
  have hcb : submitOrderCallsBackend st = false := by
    simp [submitOrderCallsBackend, hl]
  have hb : submitOrderBegin st = showToast st "Nothing to submit. Add items first." := by
    simp [submitOrderBegin, h1, hl]
  have hso : submitOrder st result = showToast st "Nothing to submit. Add items first." := by
    rw [submitOrder, if_neg (by simp [hcb]), hb]
  exact ⟨hso, hcb, by simp [hso, showToast, h1]⟩

/-- C5 witness: a cart holding only a non-purchasable product yields the
"nothing to submit" toast and no backend call. -/
theorem submitOrder_nothing_to_submit_witness :
    submitOrder demoNonPurchasableState (SubmitResult.thrown "ignored") =
      showToast demoNonPurchasableState "Nothing to submit. Add items first." ∧
    submitOrderCallsBackend demoNonPurchasableState = false :=
  (fun h => ⟨h.1, h.2.1⟩)
    (submitOrder_nothing_to_submit demoNonPurchasableState
      (SubmitResult.thrown "ignored") rfl (by decide))

/-- C6: `submitOrder` is a no-op making no backend call whenever the
submission flag is already InFlight; consequently two back-to-back
submissions of a submittable cart make exactly one backend call. -/
theorem submitOrder_inflight_noop (st : AppState) (result : SubmitResult) :
    (st.isSubmitting = true →
      submitOrder st result = st ∧ submitOrderCallsBackend st = false) ∧
    (st.isSubmitting = false → (submitLines st.cart).isEmpty = false →
      backToBackSubmitCalls st = 1) := by
  constructor
  · intro h
    have hcb : submitOrderCallsBackend st = false := by
      simp [submitOrderCallsBackend, h]
    refine ⟨?_, hcb⟩
    rw [submitOrder, if_neg (by simp [hcb]), submitOrderBegin, if_pos h]
  · intro h1 h2
    have hcb : submitOrderCallsBackend st = true := by
      simp [submitOrderCallsBackend, h1, h2]
    have hbegin : submitOrderBegin st = { st with isSubmitting := true } := by
      simp [submitOrderBegin, h1, h2]
    have hcb2 : submitOrderCallsBackend (submitOrderBegin st) = false := by
      simp [hbegin, submitOrderCallsBackend]
    simp [backToBackSubmitCalls, hcb, hcb2]

/-! ## Category sorting and grouping lemmas -/

theorem categoryLe_trans (a b c : Category) (h1 : categoryLe a b = true)
    (h2 : categoryLe b c = true) : categoryLe a c = true := by
  rw [categoryLe, decide_eq_true_iff] at h1 h2 ⊢
  exact le_trans h1 h2

theorem categoryLe_total (a b : Category) :
    (categoryLe a b || categoryLe b a) = true := by
  rcases le_total a.name.toLower b.name.toLower with h | h <;>
    simp [categoryLe, h]

theorem sortCategories_sorted (cats : List Category) :
    (sortCategories cats).Pairwise fun a b => categoryLe a b = true :=
  List.sorted_mergeSort categoryLe_trans categoryLe_total cats

theorem head_sortCategories_min (cats : List Category) (c : Category)
    (h : (sortCategories cats).head? = some c) :
    ∀ d ∈ cats, categoryLe c d = true := by
  intro d hd
  have hd2 : d ∈ sortCategories cats := List.mem_mergeSort.mpr hd
  have hsorted := sortCategories_sorted cats
  cases hs : sortCategories cats with
  | nil => rw [hs] at h; exact absurd h (by simp)
  | cons x tl =>
      rw [hs] at h hd2 hsorted
      have hcx : x = c := by simpa using h
      subst hcx
      rcases List.mem_cons.mp hd2 with rfl | htl
      · rw [categoryLe, decide_eq_true_iff]
      · exact (List.pairwise_cons.mp hsorted).1 d htl

theorem insertProductNode_id_ne (cats : List Category) (node : RawProductNode)
    (h : ∀ c ∈ cats, c.id ≠ "") : ∀ c ∈ insertProductNode cats node, c.id ≠ "" := by
  have hnew : nodeCategoryId node ≠ "" := by
    rw [nodeCategoryId]
    cases node.category with
    | none => simp
    | some r => by_cases hr : r.id = "" <;> simp [jsOr, hr]
  intro c hc
  rw [insertProductNode] at hc
  by_cases hany : cats.any (fun d => d.id == nodeCategoryId node)
  · rw [if_pos hany] at hc
    rcases List.mem_map.mp hc with ⟨d, hd, rfl⟩
    by_cases hdn : d.id = nodeCategoryId node <;> simpa [hdn] using h d hd
  · rw [if_neg hany] at hc
    rcases List.mem_append.mp hc with hc1 | hc1
    · exact h c hc1
    · rw [List.mem_singleton] at hc1
      rw [hc1]
      exact hnew

theorem foldl_insertProductNode_id_ne (nodes : List RawProductNode)
    (cats : List Category) (h : ∀ c ∈ cats, c.id ≠ "") :
    ∀ c ∈ nodes.foldl insertProductNode cats, c.id ≠ "" := by
  induction nodes generalizing cats with
  | nil => exact h
  | cons n rest ih => exact ih _ (insertProductNode_id_ne cats n h)

theorem groupByCategory_id_ne (nodes : List RawProductNode) :
    ∀ c ∈ groupByCategory nodes, c.id ≠ "" :=
  foldl_insertProductNode_id_ne nodes [] (by simp)

theorem insertProductNode_ne_nil (cats : List Category) (node : RawProductNode) :
    insertProductNode cats node ≠ [] := by
  rw [insertProductNode]
  by_cases hany : cats.any (fun d => d.id == nodeCategoryId node)
  · rw [if_pos hany]
    rcases List.any_eq_true.mp hany with ⟨d, hd, _⟩
    intro hnil
    rw [List.map_eq_nil_iff] at hnil
    rw [hnil] at hd
    exact List.not_mem_nil d hd
  · rw [if_neg hany]
    simp

theorem foldl_insertProductNode_ne_nil (nodes : List RawProductNode)
    (cats : List Category) (h : cats ≠ []) :
    nodes.foldl insertProductNode cats ≠ [] := by
  induction nodes generalizing cats with
  | nil => exact h
  | cons n rest ih => exact ih _ (insertProductNode_ne_nil cats n)

theorem groupByCategory_ne_nil (nodes : List RawProductNode) (h : nodes ≠ []) :
    groupByCategory nodes ≠ [] := by
  cases nodes with
  | nil => exact absurd rfl h
  | cons n rest =>
      exact foldl_insertProductNode_ne_nil rest _ (insertProductNode_ne_nil [] n)

/-- C8: `selectStore` with a successful catalog fetch enters the store
view with the grouped catalog, and the active category — whenever one is
selected — is minimal by display name under case-insensitive comparison;
one is selected exactly when the store has products.  With a failed fetch
the session still enters the store view, with an empty catalog, no active
category, a toast carrying the error message and a retry-oriented empty
message. -/
theorem selectStore_first_category (st : AppState) (store : Store)
    (nodes : List RawProductNode) (msg : String) :
    ((selectStore st store (Except.ok nodes)).selectedStore = some store) ∧
    ((selectStore st store (Except.ok nodes)).productsByCategory =
      groupByCategory nodes) ∧
    (∀ cid, (selectStore st store (Except.ok nodes)).selectedCategoryId = some cid →
      ∃ c ∈ groupByCategory nodes, c.id = cid ∧
        ∀ d ∈ groupByCategory nodes, c.name.toLower ≤ d.name.toLower) ∧
    (nodes ≠ [] →
      ((selectStore st store (Except.ok nodes)).selectedCategoryId).isSome = true) ∧
    (nodes = [] →
      (selectStore st store (Except.ok nodes)).selectedCategoryId = none) ∧
    ((selectStore st store (Except.error msg)).selectedStore = some store ∧
     (selectStore st store (Except.error msg)).productsByCategory = [] ∧
     (selectStore st store (Except.error msg)).selectedCategoryId = none ∧
     (selectStore st store (Except.error msg)).toast =
       some (jsOr msg "Unable to load products for this store.") ∧
     (selectStore st store (Except.error msg)).productEmptyMessage =
       "Unable to load products. Swipe down to retry.") := by
  have hsel : (selectStore st store (Except.ok nodes)).selectedCategoryId =
      jsOrNull (((sortCategories (groupByCategory nodes)).head?).map Category.id) := by
    simp [selectStore, loadStoreProductsOk, resetCart]
  refine ⟨by simp [selectStore, loadStoreProductsOk, resetCart],
    by simp [selectStore, loadStoreProductsOk, resetCart], ?_, ?_, ?_, ?_⟩
  · intro cid hcid
    rw [hsel] at hcid
    cases hs : (sortCategories (groupByCategory nodes)).head? with
    | none => rw [hs] at hcid; exact absurd hcid (by simp [jsOrNull])
    | some c =>
        rw [hs] at hcid
        have hcmem : c ∈ groupByCategory nodes :=
          List.mem_mergeSort.mp (List.mem_of_mem_head? hs)
        have hid : c.id = cid := by
          by_cases h0 : c.id = ""
          · exact absurd hcid (by simp [jsOrNull, h0])
          · simpa [jsOrNull, h0] using hcid
        refine ⟨c, hcmem, hid, fun d hd => ?_⟩
        have := head_sortCategories_min (groupByCategory nodes) c hs d hd
        rwa [categoryLe, decide_eq_true_iff] at this
  · intro hne
    rw [hsel]
    have hg : groupByCategory nodes ≠ [] := groupByCategory_ne_nil nodes hne
    cases hs : (sortCategories (groupByCategory nodes)).head? with
    | none =>
        have : sortCategories (groupByCategory nodes) = [] := by
          cases h : sortCategories (groupByCategory nodes)
          · rfl
          · rw [h] at hs; exact absurd hs (by simp)
        have hlen := congrArg List.length this
        rw [sortCategories, List.length_mergeSort] at hlen
        exact absurd (List.length_eq_zero.mp hlen) hg
    | some c =>
        have hcmem : c ∈ groupByCategory nodes :=
          List.mem_mergeSort.mp (List.mem_of_mem_head? hs)
        have h0 : c.id ≠ "" := groupByCategory_id_ne nodes c hcmem
        simp [jsOrNull, h0]
  · intro hnil
    subst hnil
    rw [hsel]
    simp [sortCategories, groupByCategory, jsOrNull]
  · refine ⟨?_, ?_, ?_, ?_, ?_⟩ <;> simp [selectStore, showToast, resetCart]

end SaleorTma
